import Mathlib

/-!
Shallow embedding of the orch core — the process-orchestration and
control-channel subsystem of this repository — translated from
`contrib/orch/lib/core/orch_ipc.c`, `contrib/orch/lib/core/orch_spawn.c`,
`contrib/orch/lib/core/orch_lua.c` and `contrib/orch/lib/core/orch_tty.c`
(with the shared declarations of `contrib/orch/lib/orch_lib.h`), together
with theorems settling the specification claims about it.

Machine integers are modelled as `Nat` with explicit reduction modulo
`2 ^ 64` where overflow matters; file descriptors as `Int` (`-1` = closed);
nullable C pointers as `Option` (dereferencing `none` is the undefined
outcome); the socket's inbound traffic as the list of bytes currently
available plus a flag telling whether the peer has closed its write side.
-/

namespace Orch

/-! ### Tag space: `enum orch_ipc_tag` (orch_lib.h:29-37) -/

def IPC_NOXMIT : Nat := 0
def IPC_RELEASE : Nat := 1
def IPC_ERROR : Nat := 2
def IPC_TERMIOS_INQUIRY : Nat := 3
def IPC_TERMIOS_SET : Nat := 4
def IPC_TERMIOS_ACK : Nat := 5
def IPC_LAST : Nat := 6

/-- A fully received message: `struct orch_ipc_msg` (header tag plus payload
bytes).  The header's `size` field is derived (`hdrSize + payload.length`)
and is not stored separately. -/
structure OrchIpcMsg where
  tag : Nat
  payload : List Nat
deriving Repr, DecidableEq

/-- Size in bytes of `struct orch_ipc_header` on the wire: two 64-bit machine
words (`size_t size; enum orch_ipc_tag tag;`, the tag word padded out). -/
def hdrSize : Nat := 16

/-- The eight bytes of one little-endian machine word as written by
`write(sockfd, &hdr, ...)`; values at or above `2 ^ 64` wrap, as the high
digits are discarded. -/
def encodeWord (n : Nat) : List Nat :=
  [n % 256, n / 256 % 256, n / 256 ^ 2 % 256, n / 256 ^ 3 % 256,
   n / 256 ^ 4 % 256, n / 256 ^ 5 % 256, n / 256 ^ 6 % 256, n / 256 ^ 7 % 256]

/-- Reassembling a machine word from the bytes read by
`read(sockfd, &hdr, ...)` (little-endian). -/
def decodeWord (bs : List Nat) : Nat :=
  bs.foldr (fun b acc => b + 256 * acc) 0

/-- The bytes `orch_ipc_send` writes for a message: the fixed header (size
word, then tag word) followed by the payload (orch_ipc.c:377, 390). -/
def msgBytes (m : OrchIpcMsg) : List Nat :=
  encodeWord (hdrSize + m.payload.length) ++ encodeWord m.tag ++ m.payload

/-- Outcome of `orch_ipc_drain` (orch_ipc.c:181-275). -/
inductive DrainOut where
  /-- Returned 0.  `sockOpen = false` when end-of-file was observed and the
  socket was closed (orch_ipc.c:268-274). -/
  | ok (queue : List OrchIpcMsg) (sockOpen : Bool)
  /-- Returned -1: malformed header (`EINVAL`, orch_ipc.c:207-210) or a hard
  read failure. -/
  | fail (queue : List OrchIpcMsg)
  /-- Waiting in `orch_ipc_poll` for payload bytes that never arrive. -/
  | blocked (queue : List OrchIpcMsg)
  /-- A header read returned fewer than `sizeof(hdr)` bytes; the C code does
  not detect this and would parse a half-filled header (the latent gap noted
  in the spec), so the model leaves the outcome undefined. -/
  | shortHdr (queue : List OrchIpcMsg)
deriving Repr, DecidableEq

/-- `orch_ipc_drain` (orch_ipc.c:181-275): repeatedly read a header; stop
quietly when no data is available (`EAGAIN`); on end-of-file close the
socket; otherwise validate that the declared size is at least a header's
worth and that the tag is not the reserved sentinel, read exactly the
declared payload length (waiting for readability as needed, end-of-file
mid-payload abandons the message and closes), and append the completed
message to the queue tail. -/
def orch_ipc_drain (queue : List OrchIpcMsg) (inbound : List Nat) (eof : Bool) :
    DrainOut :=
  if inbound.length = 0 then (if eof then .ok queue false else .ok queue true)
  else if inbound.length < hdrSize then .shortHdr queue
  else
    let size := decodeWord (inbound.take 8)
    let tag := decodeWord ((inbound.drop 8).take 8)
    if size < hdrSize ∨ tag = IPC_NOXMIT then .fail queue
    else
      let resid := size - hdrSize
      let rest := inbound.drop hdrSize
      if hres : resid ≤ rest.length then
        orch_ipc_drain (queue ++ [⟨tag, rest.take resid⟩]) (rest.drop resid) eof
      else
        if eof then .ok queue false else .blocked queue
termination_by inbound.length
decreasing_by
  simp only [List.length_drop, hdrSize] at *
  omega

/-- Outcome of `orch_ipc_pop` (orch_ipc.c:277-338).  `dispatched` records the
messages whose registered handler was invoked. -/
inductive PopOut where
  /-- Returned 0; `msg` is the message handed to the caller, if any. -/
  | ret (queue : List OrchIpcMsg) (dispatched : List OrchIpcMsg)
      (msg : Option OrchIpcMsg)
  /-- A handler reported failure; processing stopped (orch_ipc.c:309-313). -/
  | err (queue : List OrchIpcMsg) (dispatched : List OrchIpcMsg)
  /-- The access `ipc->callbacks[msg->hdr.tag - 1]` (orch_ipc.c:298) fell
  outside the `IPC_LAST - 1`-entry table: undefined behaviour. -/
  | oob (msg : OrchIpcMsg)
deriving Repr, DecidableEq

/-- The handler table `callbacks[IPC_LAST - 1]` of `struct orch_ipc`
(orch_ipc.c:55).  A slot holds `some b` when a handler is registered, where
`b` tells whether that handler reports success when invoked. -/
def Callbacks : Type := Fin (IPC_LAST - 1) → Option Bool

/-- `orch_ipc_pop` (orch_ipc.c:277-338): dequeue messages in order; a message
whose tag has a registered handler is dispatched to it and freed (stopping
with an error if the handler fails); without a handler it is returned to a
caller that asked for one (`wantMsg`), or freed during a pure drain. -/
def orch_ipc_pop (cb : Callbacks) (wantMsg : Bool) (queue : List OrchIpcMsg)
    (dispatched : List OrchIpcMsg) : PopOut :=
  match queue with
  | [] => .ret [] dispatched none
  | m :: rest =>
    if hidx : m.tag - 1 < IPC_LAST - 1 then
      match cb ⟨m.tag - 1, hidx⟩ with
      | some handlerOk =>
        if handlerOk then orch_ipc_pop cb wantMsg rest (dispatched ++ [m])
        else .err rest (dispatched ++ [m])
      | none =>
        if wantMsg then .ret rest dispatched (some m)
        else orch_ipc_pop cb wantMsg rest dispatched
    else .oob m

/-- Outcome of `orch_ipc_recv` (orch_ipc.c:340-354). -/
inductive RecvOut where
  | ok (msg : Option OrchIpcMsg) (queue : List OrchIpcMsg)
      (dispatched : List OrchIpcMsg) (sockOpen : Bool)
  | fail
  | blocked
  | shortHdr
  | oobAccess
deriving Repr, DecidableEq

/-- `orch_ipc_recv` (orch_ipc.c:340-354): drain the socket, then pop the
queue asking for a message. -/
def orch_ipc_recv (cb : Callbacks) (queue : List OrchIpcMsg)
    (inbound : List Nat) (eof : Bool) : RecvOut :=
  match orch_ipc_drain queue inbound eof with
  | .ok q sockOpen =>
    match orch_ipc_pop cb true q [] with
    | .ret q' disp m => .ok m q' disp sockOpen
    | .err _ _ => .fail
    | .oob _ => .oobAccess
  | .fail _ => .fail
  | .blocked _ => .blocked
  | .shortHdr _ => .shortHdr

/-- Outcome of `orch_ipc_send` (orch_ipc.c:367-402).  `dispatched` records
handler invocations performed during the call; the send path calls
`orch_ipc_drain` only — never `orch_ipc_pop` — so it is `[]` by
construction, mirroring that no callback can run inside `orch_ipc_send`. -/
inductive SendOut where
  | sent (queue : List OrchIpcMsg) (dispatched : List OrchIpcMsg)
      (wire : List Nat)
  | fail (queue : List OrchIpcMsg) (dispatched : List OrchIpcMsg)
  | blocked
  | shortHdr
deriving Repr, DecidableEq

/-- `orch_ipc_send` (orch_ipc.c:367-402): drain pending inbound bytes into
the queue, then write the header and payload.  If drain already observed
end-of-file the socket is closed and the header write fails (`EBADF`). -/
def orch_ipc_send (queue : List OrchIpcMsg) (inbound : List Nat) (eof : Bool)
    (msg : OrchIpcMsg) : SendOut :=
  match orch_ipc_drain queue inbound eof with
  | .ok q sockOpen =>
    if sockOpen then .sent q [] (msgBytes msg) else .fail q []
  | .fail q => .fail q []
  | .blocked _ => .blocked
  | .shortHdr _ => .shortHdr

/-- `orch_ipc_register` (orch_ipc.c:356-365): store the handler into
`callbacks[tag - 1]` and return 0.  There is no occupancy check: an existing
registration is overwritten.  The C code performs the array access without a
bounds check; the model carries the in-range proof its callers satisfy. -/
def orch_ipc_register (cb : Callbacks) (tag : Nat)
    (hidx : tag - 1 < IPC_LAST - 1) (handler : Option Bool) :
    Callbacks × Int :=
  (Function.update cb ⟨tag - 1, hidx⟩ handler, 0)

/-! ### Channel handle: `struct orch_ipc` (orch_ipc.c:54-59) -/

/-- The mutable portion of a channel handle: the socket descriptor (`-1` when
closed), the receive queue, the bytes currently readable from the socket and
whether the peer has closed its write side behind them.  The handler table is
threaded separately as `Callbacks`. -/
structure ChanState where
  sockfd : Int
  queue : List OrchIpcMsg
  pendingIn : List Nat
  peerEof : Bool
deriving Repr, DecidableEq

/-- `orch_ipc_okay` (orch_ipc.c:121-126): `return (ipc->sockfd >= 0)`.  The
function dereferences its argument unconditionally, so on a NULL channel
pointer the result is undefined (`none`). -/
def orch_ipc_okay : Option ChanState → Option Bool
  | none => none
  | some ch => some (decide (0 ≤ ch.sockfd))

/-- Outcome of `orch_ipc_close` (orch_ipc.c:65-104). -/
inductive IpcCloseOut where
  /-- Returned; `err` is the final `orch_ipc_pop` result (the drain loop's
  error is overwritten at orch_ipc.c:98), `closedFds` the descriptors closed
  during the call.  The handle itself is freed before returning. -/
  | done (err : Bool) (dispatched : List OrchIpcMsg) (closedFds : List Int)
  /-- The call never returns (blocking drain or undefined dispatch). -/
  | stuck
deriving Repr, DecidableEq

/-- `orch_ipc_close` (orch_ipc.c:65-104): a NULL handle returns 0 at once.
Otherwise, with the socket still open, half-close the write side and drain
until end-of-file is observed (the peer eventually closes, so the remaining
inbound bytes are followed by end-of-file — hence `eof := true` below); the
drain closes the descriptor on end-of-file, and the error exit of the loop
closes it otherwise, so it is closed exactly once.  A final
`orch_ipc_pop(ipc, NULL)` dispatches or frees every queued message, and the
handle is freed. -/
def orch_ipc_close (cb : Callbacks) : Option ChanState → IpcCloseOut
  | none => .done false [] []
  | some ch =>
    if ch.sockfd ≠ -1 then
      match orch_ipc_drain ch.queue ch.pendingIn true with
      | .ok q _ =>
        match orch_ipc_pop cb false q [] with
        | .ret _ disp _ => .done false disp [ch.sockfd]
        | .err _ disp => .done true disp [ch.sockfd]
        | .oob _ => .stuck
      | .fail q =>
        match orch_ipc_pop cb false q [] with
        | .ret _ disp _ => .done false disp [ch.sockfd]
        | .err _ disp => .done true disp [ch.sockfd]
        | .oob _ => .stuck
      | .blocked _ => .stuck
      | .shortHdr _ => .stuck
    else
      match orch_ipc_pop cb false ch.queue [] with
      | .ret _ disp _ => .done false disp []
      | .err _ disp => .done true disp []
      | .oob _ => .stuck

/-! ### Release handshake: `orch_wait` / `orch_exec` (orch_spawn.c) -/

/-- One observable arrival on the control channel while blocked in
`orch_wait`: a complete message, or the peer closing the stream. -/
inductive WaitEvent where
  | msg (m : OrchIpcMsg)
  | eof
deriving Repr, DecidableEq

inductive WaitResult where
  /-- `orch_wait` returned 0. -/
  | success
  /-- `orch_wait` returned -1 (a handler or transport failure). -/
  | failure
  /-- No further traffic arrives: `orch_ipc_wait` blocks forever. -/
  | blockedForever
  /-- Undefined dispatch (handler-table access out of bounds). -/
  | stuck
deriving Repr, DecidableEq

/-- `orch_wait` (orch_spawn.c:144-168): loop waiting on the channel;
end-of-file stops the loop with success; a received message is dispatched to
its registered handler (failure propagating out) or, with no handler,
returned — stopping with success exactly when its tag is `IPC_RELEASE`. -/
def orch_wait (cb : Callbacks) : List WaitEvent → WaitResult
  | [] => .blockedForever
  | .eof :: _ => .success
  | .msg m :: rest =>
    if hidx : m.tag - 1 < IPC_LAST - 1 then
      match cb ⟨m.tag - 1, hidx⟩ with
      | some handlerOk => if handlerOk then orch_wait cb rest else .failure
      | none => if m.tag = IPC_RELEASE then .success else orch_wait cb rest
    else .stuck

/-- The parent's handler table at the point `orch_spawn` blocks in
`orch_wait` (orch_spawn.c:135-141): only `IPC_ERROR` is registered, with
`orchlua_child_error` (orch_lua.c:265-278), which always returns 0. -/
def cbSpawnParent : Callbacks :=
  fun i => if i.val = IPC_ERROR - 1 then some true else none

/-- The tail of `orch_spawn` in the parent (orch_spawn.c:141): block in
`orch_wait` until the child's setup-complete signal; the spawn call returns
when this does. -/
def orch_spawn_parent_wait (events : List WaitEvent) : WaitResult :=
  orch_wait cbSpawnParent events

/-- The child's handler table inside `orch_exec` after its registrations
(orch_spawn.c:274-276): `IPC_TERMIOS_INQUIRY` and `IPC_TERMIOS_SET` are
registered (handlers succeeding in normal operation). -/
def cbExecChild : Callbacks :=
  fun i =>
    if i.val = IPC_TERMIOS_INQUIRY - 1 ∨ i.val = IPC_TERMIOS_SET - 1 then
      some true
    else none

inductive ExecOut where
  /-- Control reached `execvp(argv[0], ...)` (orch_spawn.c:297). -/
  | execed
  /-- The child exited via `_exit(1)` or never left `orch_wait`. -/
  | noExec
deriving Repr, DecidableEq

/-- `orch_exec` (orch_spawn.c:261-300), from the point the child blocks in
`orch_wait`: the target command is executed exactly when that wait returns
success. -/
def orch_exec (cb : Callbacks) (events : List WaitEvent) : ExecOut :=
  match orch_wait cb events with
  | .success => .execed
  | _ => .noExec

/-! ### Process handle: `struct orch_process` (orch_lib.h:39-52) -/

structure OrchProcess where
  /-- Child process id; 0 once reaped or cleared. -/
  pid : Nat
  /-- Channel endpoint; `none` models the NULL pointer. -/
  ipc : Option ChanState
  /-- Parent-side pty master descriptor; -1 once closed. -/
  termctl : Int
  /-- Whether `self->term` is non-NULL (a terminal handle was generated). -/
  termSet : Bool
  released : Bool
  eof : Bool
  error : Bool
deriving Repr, DecidableEq

/-- The child-side facts `orchlua_process_close` and the read path probe via
`waitpid`/signals, abstracted from the kernel. -/
structure ChildBehavior where
  /-- Result of reaping with `WNOHANG`: `some sig` when the child has already
  terminated (`sig = 0` for a normal exit, otherwise the terminating
  signal); `none` while it is still alive. -/
  exitedSig : Option Nat
  /-- Whether a live child exits in response to `SIGINT` before the
  5-second alarm interrupts the wait. -/
  diesOnIntInTime : Bool
deriving Repr, DecidableEq

def SIGINT : Nat := 2
def SIGKILL : Nat := 9

inductive CloseResult where
  /-- `lua_pushboolean(L, 1)`. -/
  | success
  /-- Fail: "spawned process killed with signal ...". -/
  | failSignal (sig : Nat)
  /-- Fail: "could not kill process with SIGINT". -/
  | failGraceful
deriving Repr, DecidableEq

/-- Outcome of `orchlua_process_close`: the Lua-visible result, the handle
afterwards, the descriptors closed by the call, and the signals sent —
each paired with whether an alarm deadline was armed around its wait. -/
inductive ProcCloseOut where
  | out (r : CloseResult) (p : OrchProcess) (closedFds : List Int)
      (signalsSent : List (Nat × Bool))
  | stuck
deriving Repr, DecidableEq

/-- The common tail of `orchlua_process_close` (orch_lua.c:421-435): close
the channel, clear the pointer, close the pty master if still open, then
report `failGraceful` when the graceful kill had failed. -/
def orchlua_process_close_finish (cb : Callbacks) (failed : Bool)
    (signals : List (Nat × Bool)) (p : OrchProcess) : ProcCloseOut :=
  match orch_ipc_close cb p.ipc with
  | .done _ _ fds =>
    let p1 : OrchProcess := { p with ipc := none }
    let fds2 := if p1.termctl ≠ -1 then fds ++ [p1.termctl] else fds
    let p2 : OrchProcess := { p1 with termctl := -1 }
    .out (if failed then .failGraceful else .success) p2 fds2 signals
  | .stuck => .stuck

/-- `orchlua_process_close` (orch_lua.c:377-436): a child already gone with
a signal is reported as a failure at once (after reaping); a live child is
sent `SIGINT` under a 5-second alarm (`orchlua_process_close_alarm` is a
no-op handler so the timer merely interrupts the wait), escalating to an
unconditional `SIGKILL` waited on without a deadline (the `again` label sits
after `alarm(5)`); in the remaining paths the channel and pty master are
closed and the result reports whether graceful termination failed. -/
def orchlua_process_close (cb : Callbacks) (beh : ChildBehavior)
    (p : OrchProcess) : ProcCloseOut :=
  if p.pid ≠ 0 then
    match beh.exitedSig with
    | some sig =>
      let p1 : OrchProcess := { p with pid := 0 }
      if sig ≠ 0 then .out (.failSignal sig) p1 [] []
      else orchlua_process_close_finish cb false [] p1
    | none =>
      let p1 : OrchProcess := { p with pid := 0 }
      if beh.diesOnIntInTime then
        orchlua_process_close_finish cb false [(SIGINT, true)] p1
      else
        orchlua_process_close_finish cb true
          [(SIGINT, true), (SIGKILL, false)] p1
  else orchlua_process_close_finish cb false [] p

/-! ### The read loop: `orchlua_process_read` (orch_lua.c:442-578) -/

/-- Result of the `select` call at the head of one loop iteration. -/
inductive SelectOutcome where
  | timeout
  | intr
  | selErr (e : Nat)
  | ready
deriving Repr, DecidableEq

/-- Result of the `read` on the pty master once `select` reported data. -/
inductive PtyReadOutcome where
  /-- `readsz = bytes.length` (an empty list is the zero-length read). -/
  | bytesRead (bytes : List Nat)
  /-- `readsz = -1` with `errno = EIO`. -/
  | eioErr
  /-- `readsz = -1` with some other errno. -/
  | errOther (e : Nat)
deriving Repr, DecidableEq

/-- Outcome of one iteration of the read loop. -/
inductive ReadOut where
  /-- Returned `true` (timeout, clean end-of-file, or callback done). -/
  | finished (p : OrchProcess)
  /-- Returned fail plus `strerror(e)`. -/
  | failErrno (e : Nat) (p : OrchProcess)
  /-- Returned fail plus "spawned process killed with signal ...". -/
  | failSignal (sig : Nat) (p : OrchProcess)
  /-- Fell through to the next loop iteration. -/
  | continueLoop (p : OrchProcess)
deriving Repr, DecidableEq

def eioErrno : Nat := 5

/-- One iteration of `orchlua_process_read` (orch_lua.c:481-573): timeout
returns success ("not the end of the world"); `EINTR` rearms and retries; a
hard `select` failure is an error; on data, `read` is normalized so that an
`EIO` failure becomes a zero-length read, a zero-length read latches `eof`,
closes the pty master, reaps the child and fails exactly for a
signal-terminated exit, and data is handed to the callback whose verdict
either finishes or continues the loop. -/
def orchlua_process_read_step (beh : ChildBehavior) (p : OrchProcess)
    (sel : SelectOutcome) (io : PtyReadOutcome) (cbDone : Bool) : ReadOut :=
  match sel with
  | .timeout => .finished p
  | .intr => .continueLoop p
  | .selErr e => .failErrno e p
  | .ready =>
    let normalized := if io = PtyReadOutcome.eioErr
      then PtyReadOutcome.bytesRead [] else io
    match normalized with
    | .eioErr => .failErrno eioErrno p
    | .errOther e => .failErrno e p
    | .bytesRead bytes =>
      if bytes.isEmpty then
        let p1 : OrchProcess := { p with eof := true, termctl := -1 }
        match beh.exitedSig with
        | some sig =>
          let p2 : OrchProcess := { p1 with pid := 0 }
          if sig ≠ 0 then .failSignal sig p2 else .finished p2
        | none => .finished p1
      else if cbDone then .finished p else .continueLoop p

/-! ### Release and terminal-handle entry (orch_lua.c) -/

inductive ProcReleaseOut where
  /-- Returned `true`; the handle is released. -/
  | ok (p : OrchProcess)
  /-- Returned fail plus `strerror`. -/
  | failErr (p : OrchProcess)
  /-- Undefined (NULL channel dereference or non-returning close). -/
  | stuck
deriving Repr, DecidableEq

/-- `orchlua_process_release` (orch_lua.c:613-637): send `IPC_RELEASE`
(`orch_release`, orch_spawn.c:170-175, which dereferences the channel
pointer), close the channel, clear the handle's channel pointer, and latch
`released` on success.  Descriptor bookkeeping after a failed send is not
tracked; only the resulting handle matters to the callers below. -/
def orchlua_process_release (cb : Callbacks) (p : OrchProcess) :
    ProcReleaseOut :=
  match p.ipc with
  | none => .stuck
  | some c =>
    match orch_ipc_send c.queue c.pendingIn c.peerEof ⟨IPC_RELEASE, []⟩ with
    | .sent q _ _ =>
      match orch_ipc_close cb (some { c with queue := q, pendingIn := [] }) with
      | .stuck => .stuck
      | .done _ _ _ => .ok { p with ipc := none, released := true }
    | .fail q _ =>
      match orch_ipc_close cb (some { c with queue := q, pendingIn := [] }) with
      | .stuck => .stuck
      | .done _ _ _ => .failErr { p with ipc := none }
    | .blocked => .stuck
    | .shortHdr => .stuck

/-- Outcome of the guards at the head of `orchlua_process_term`
(orch_lua.c:679-688). -/
inductive TermEntryOut where
  /-- `orch_ipc_okay(self->ipc)` dereferenced a NULL channel pointer. -/
  | crashNullDeref
  /-- Fail: "process already released". -/
  | failAlreadyReleased
  /-- Fail: "process term already generated". -/
  | failTermGenerated
  /-- Guards passed; the termios inquiry proceeds. -/
  | proceed
deriving Repr, DecidableEq

/-- The entry guards of `orchlua_process_term` (orch_lua.c:679-688): the
channel-liveness check runs first, then the already-generated check. -/
def orchlua_process_term_entry (p : OrchProcess) : TermEntryOut :=
  match orch_ipc_okay p.ipc with
  | none => .crashNullDeref
  | some ok =>
    if !ok then .failAlreadyReleased
    else if p.termSet then .failTermGenerated
    else .proceed

/-! ### Terminal attributes: `orchlua_term_update` / `_fetch` (orch_tty.c) -/

/-- `struct termios` as carried in a `TERMIOS_SET` payload: the four flag
words and the indexed control-character array. -/
structure Termios where
  c_iflag : Nat
  c_oflag : Nat
  c_cflag : Nat
  c_lflag : Nat
  c_cc : List Nat
deriving Repr, DecidableEq

/-- The Lua table passed to `update`: each field either absent (`none`, the
`lua_getfield` returns nil and the field is skipped) or a valid value.  The
control-character sub-table is taken post-parse, as `(index, value)`
pairs. -/
structure TermUpdateTable where
  iflag : Option Nat
  oflag : Option Nat
  cflag : Option Nat
  lflag : Option Nat
  cc : Option (List (Nat × Nat))
deriving Repr, DecidableEq

/-- `orchlua_term_update_cc` (orch_tty.c:129-193), after caret-notation
parsing: store each present entry into `term->c_cc[iter->cntrl_idx]`. -/
def orchlua_term_update_cc (cc : List Nat) (upd : List (Nat × Nat)) :
    List Nat :=
  upd.foldl (fun acc iv => acc.set iv.1 iv.2) cc

/-- The field list `orchlua_term_update` iterates over (orch_tty.c:198):
`const char *fields[] = { "iflag", "oflag", "lflag", "cc", NULL };` —
transcribed as written; note it does not contain `"cflag"`. -/
def orchlua_term_update_fields : List String := ["iflag", "oflag", "lflag", "cc"]

/-- The dispatch chain in the body of the field loop of `orchlua_term_update`
(orch_tty.c:219-262), applied to one field name: a field absent from the
update table (nil) leaves the snapshot unchanged, a present one overwrites
the corresponding word (or remaps control characters). -/
def orchlua_term_apply_field (tbl : TermUpdateTable) (t : Termios)
    (field : String) : Termios :=
  if field = "iflag" then
    match tbl.iflag with | none => t | some v => { t with c_iflag := v }
  else if field = "oflag" then
    match tbl.oflag with | none => t | some v => { t with c_oflag := v }
  else if field = "cflag" then
    match tbl.cflag with | none => t | some v => { t with c_cflag := v }
  else if field = "lflag" then
    match tbl.lflag with | none => t | some v => { t with c_lflag := v }
  else if field = "cc" then
    match tbl.cc with
    | none => t
    | some u => { t with c_cc := orchlua_term_update_cc t.c_cc u }
  else t

/-- The snapshot `orchlua_term_update` computes (orch_tty.c:215-267):
`updated = self->term`, then the loop over `fields` applies each named
field; the result is stored back into `self->term` and sent tagged
`IPC_TERMIOS_SET`. -/
def orchlua_term_update_snapshot (t : Termios) (tbl : TermUpdateTable) :
    Termios :=
  orchlua_term_update_fields.foldl (orchlua_term_apply_field tbl) t

/-- The flag-word arm of `orchlua_term_fetch` (orch_tty.c:105-124): fetching
a named flag word reads it from the handle's stored snapshot (an unknown
name yields nil). -/
def orchlua_term_fetch_flag (t : Termios) (which : String) : Option Nat :=
  if which = "iflag" then some t.c_iflag
  else if which = "oflag" then some t.c_oflag
  else if which = "cflag" then some t.c_cflag
  else if which = "lflag" then some t.c_lflag
  else none

/-! ### Helper lemmas -/

theorem decodeWord_encodeWord (n : Nat) (h : n < 2 ^ 64) :
    decodeWord (encodeWord n) = n := by
  simp only [decodeWord, encodeWord, List.foldr_cons, List.foldr_nil]
  have e2 : (256 : Nat) ^ 2 = 65536 := by norm_num
  have e3 : (256 : Nat) ^ 3 = 16777216 := by norm_num
  have e4 : (256 : Nat) ^ 4 = 4294967296 := by norm_num
  have e5 : (256 : Nat) ^ 5 = 1099511627776 := by norm_num
  have e6 : (256 : Nat) ^ 6 = 281474976710656 := by norm_num
  have e7 : (256 : Nat) ^ 7 = 72057594037927936 := by norm_num
  have e64 : (2 : Nat) ^ 64 = 18446744073709551616 := by norm_num
  rw [e2, e3, e4, e5, e6, e7]
  rw [e64] at h
  omega

/-- Draining an exhausted socket only branches on the end-of-file flag. -/
theorem orch_ipc_drain_nil (queue : List OrchIpcMsg) (eof : Bool) :
    orch_ipc_drain queue [] eof = if eof then .ok queue false else .ok queue true := by
  rw [orch_ipc_drain]
  simp

/-- Draining one well-formed frame consumes its bytes and enqueues exactly
the message they encode. -/
theorem orch_ipc_drain_frame (queue : List OrchIpcMsg) (m : OrchIpcMsg)
    (restBytes : List Nat) (eof : Bool)
    (htag0 : m.tag ≠ IPC_NOXMIT) (htagw : m.tag < 2 ^ 64)
    (hsize : hdrSize + m.payload.length < 2 ^ 64) :
    orch_ipc_drain queue (msgBytes m ++ restBytes) eof =
      orch_ipc_drain (queue ++ [m]) restBytes eof := by
  have h8 : (encodeWord (hdrSize + m.payload.length)).length = 8 := rfl
  have h8' : (encodeWord m.tag).length = 8 := rfl
  have hassoc : msgBytes m ++ restBytes =
      encodeWord (hdrSize + m.payload.length) ++
        (encodeWord m.tag ++ (m.payload ++ restBytes)) := by
    simp [msgBytes, List.append_assoc]
  have hlen : (msgBytes m ++ restBytes).length =
      hdrSize + m.payload.length + restBytes.length := by
    simp [msgBytes, encodeWord, hdrSize]
    omega
  have htake8 : (msgBytes m ++ restBytes).take 8 =
      encodeWord (hdrSize + m.payload.length) := by
    rw [hassoc]
    exact List.take_left' h8
  have htake8' : ((msgBytes m ++ restBytes).drop 8).take 8 = encodeWord m.tag := by
    rw [hassoc, List.drop_left' h8]
    exact List.take_left' h8'
  have hdrop16 : (msgBytes m ++ restBytes).drop hdrSize = m.payload ++ restBytes := by
    have h2 : msgBytes m ++ restBytes =
        (encodeWord (hdrSize + m.payload.length) ++ encodeWord m.tag) ++
          (m.payload ++ restBytes) := by
      simp [msgBytes, List.append_assoc]
    rw [h2]
    refine List.drop_left' ?_
    simp [encodeWord, hdrSize]
  rw [orch_ipc_drain]
  rw [htake8, htake8', hdrop16, hlen]
  rw [decodeWord_encodeWord _ hsize, decodeWord_encodeWord _ htagw]
  have hc1 : ¬ (hdrSize + m.payload.length + restBytes.length = 0) := by
    simp [hdrSize]
  have hc2 : ¬ (hdrSize + m.payload.length + restBytes.length < hdrSize) := by
    omega
  have hc3 : ¬ (hdrSize + m.payload.length < hdrSize ∨ m.tag = IPC_NOXMIT) := by
    push_neg
    exact ⟨by omega, htag0⟩
  rw [if_neg hc1, if_neg hc2, if_neg hc3]
  have hresid : hdrSize + m.payload.length - hdrSize = m.payload.length := by omega
  rw [hresid]
  have hc4 : m.payload.length ≤ (m.payload ++ restBytes).length := by
    simp
  rw [dif_pos hc4]
  rw [List.take_left' rfl, List.drop_left' rfl]

/-! ### Claim C6 — message round-trip -/

/-- C6: for every non-reserved tag of the protocol's tag space and every
payload byte sequence of wire-representable size, the bytes `orch_ipc_send`
writes on one end of a connected channel, arriving at the other end whose
handler table is empty, make `orch_ipc_recv` return a message whose tag is
identical and whose payload is byte-identical to what was sent. -/
theorem C6_send_recv_roundtrip (tag : Nat) (payload : List Nat)
    (h1 : tag ≠ IPC_NOXMIT) (h2 : tag < IPC_LAST)
    (h3 : hdrSize + payload.length < 2 ^ 64) :
    orch_ipc_send [] [] false ⟨tag, payload⟩
      = SendOut.sent [] [] (msgBytes ⟨tag, payload⟩) ∧
    orch_ipc_recv (fun _ => none) [] (msgBytes ⟨tag, payload⟩) false
      = RecvOut.ok (some ⟨tag, payload⟩) [] [] true := by
  have h2' : tag < 6 := h2
  have h1' : tag ≠ 0 := h1
  have htagw : tag < 2 ^ 64 := by
    have e64 : (2 : Nat) ^ 64 = 18446744073709551616 := by norm_num
    omega
  constructor
  · unfold orch_ipc_send
    rw [orch_ipc_drain_nil]
    simp
  · unfold orch_ipc_recv
    have hframe := orch_ipc_drain_frame [] ⟨tag, payload⟩ [] false h1 htagw h3
    rw [List.append_nil] at hframe
    rw [hframe, orch_ipc_drain_nil]
    simp only [if_neg (by simp : ¬ (false = true)), List.nil_append]
    rw [orch_ipc_pop]
    have hidx : tag - 1 < IPC_LAST - 1 := by
      have : IPC_LAST - 1 = 5 := rfl
      omega
    rw [dif_pos hidx]
    simp

/-- C6 witness: the round-trip theorem applied at tag `IPC_TERMIOS_SET` with
payload `[7, 8]`. -/
theorem C6_send_recv_roundtrip_witness :
    (IPC_TERMIOS_SET ≠ IPC_NOXMIT ∧ IPC_TERMIOS_SET < IPC_LAST ∧
      hdrSize + ([7, 8] : List Nat).length < 2 ^ 64) ∧
    orch_ipc_send [] [] false ⟨IPC_TERMIOS_SET, [7, 8]⟩
      = SendOut.sent [] [] (msgBytes ⟨IPC_TERMIOS_SET, [7, 8]⟩) ∧
    orch_ipc_recv (fun _ => none) [] (msgBytes ⟨IPC_TERMIOS_SET, [7, 8]⟩) false
      = RecvOut.ok (some ⟨IPC_TERMIOS_SET, [7, 8]⟩) [] [] true :=
  ⟨⟨by decide, by decide, by decide⟩,
    C6_send_recv_roundtrip IPC_TERMIOS_SET [7, 8] (by decide) (by decide) (by decide)⟩

/-! ### Claim C4 — send drains but does not dispatch -/

/-- C4 counterexample: with a complete `IPC_RELEASE` message pending on the
socket and a handler registered for that tag, `orch_ipc_send` leaves the
message buffered in the queue with its handler-invocation record empty —
the handler only runs at the next receive (third conjunct), so pending
inbound traffic is buffered by `send`, not handled. -/
theorem C4_send_buffers_cex :
    orch_ipc_send [] (msgBytes ⟨IPC_RELEASE, []⟩) false ⟨IPC_TERMIOS_INQUIRY, []⟩
      = SendOut.sent [⟨IPC_RELEASE, []⟩] [] (msgBytes ⟨IPC_TERMIOS_INQUIRY, []⟩) ∧
    (Function.update (fun _ => none : Callbacks) ⟨IPC_RELEASE - 1, by decide⟩
        (some true)) ⟨IPC_RELEASE - 1, by decide⟩ = some true ∧
    orch_ipc_recv
        (Function.update (fun _ => none : Callbacks) ⟨IPC_RELEASE - 1, by decide⟩
          (some true))
        [⟨IPC_RELEASE, []⟩] [] false
      = RecvOut.ok none [] [⟨IPC_RELEASE, []⟩] true := by
  have hframe := orch_ipc_drain_frame [] ⟨IPC_RELEASE, []⟩ [] false
    (by decide) (by norm_num [IPC_RELEASE]) (by norm_num [hdrSize])
  rw [List.append_nil] at hframe
  refine ⟨?_, by simp, ?_⟩
  · unfold orch_ipc_send
    rw [hframe, orch_ipc_drain_nil]
    simp
  · unfold orch_ipc_recv
    rw [orch_ipc_drain_nil]
    simp only [if_neg (by simp : ¬ (false = true))]
    rw [orch_ipc_pop]
    rw [dif_pos (by decide : IPC_RELEASE - 1 < IPC_LAST - 1)]
    simp [Function.update_same, orch_ipc_pop]

/-- C4 amended: before writing its own header and payload, `orch_ipc_send`
drains all complete inbound messages currently available on the socket into
the receive queue (in arrival order), but it does not dispatch them — no
registered handler is invoked during the send; dispatch happens at the next
receive or pop. -/
theorem C4_send_drains_without_dispatch (queue : List OrchIpcMsg)
    (inbound : List Nat) (eof : Bool) (msg : OrchIpcMsg)
    (q : List OrchIpcMsg) (disp : List OrchIpcMsg) (wire : List Nat)
    (h : orch_ipc_send queue inbound eof msg = .sent q disp wire) :
    disp = [] ∧ wire = msgBytes msg ∧
    orch_ipc_drain queue inbound eof = .ok q true := by
  unfold orch_ipc_send at h
  split at h
  case h_1 q' sockOpen heq =>
    cases sockOpen
    · simp at h
    · simp only [if_pos rfl] at h
      cases h
      exact ⟨rfl, rfl, heq⟩
  case h_2 => simp at h
  case h_3 => simp at h
  case h_4 => simp at h

/-- C4 amended witness: a send over an idle socket, with the drain result
checked explicitly. -/
theorem C4_send_drains_without_dispatch_witness :
    orch_ipc_send [] [] false ⟨IPC_RELEASE, []⟩
      = SendOut.sent [] [] (msgBytes ⟨IPC_RELEASE, []⟩) ∧
    ([] : List OrchIpcMsg) = [] ∧ msgBytes ⟨IPC_RELEASE, []⟩ = msgBytes ⟨IPC_RELEASE, []⟩ ∧
    orch_ipc_drain [] [] false = .ok [] true := by
  have hsend : orch_ipc_send [] [] false ⟨IPC_RELEASE, []⟩
      = SendOut.sent [] [] (msgBytes ⟨IPC_RELEASE, []⟩) := by
    unfold orch_ipc_send
    rw [orch_ipc_drain_nil]
    simp
  exact ⟨hsend, C4_send_drains_without_dispatch [] [] false ⟨IPC_RELEASE, []⟩ [] []
    (msgBytes ⟨IPC_RELEASE, []⟩) hsend⟩

/-! ### Claim C9 — dispatch bounds -/

/-- Every message accepted by the drain either was already queued or passed
the header validation, so its tag is not the reserved sentinel. -/
theorem orch_ipc_drain_ok_mem_aux (n : Nat) :
    ∀ (queue : List OrchIpcMsg) (inbound : List Nat) (eof : Bool),
      inbound.length ≤ n →
      ∀ q o, orch_ipc_drain queue inbound eof = .ok q o →
        ∀ m ∈ q, m ∈ queue ∨ m.tag ≠ IPC_NOXMIT := by
  induction n with
  | zero =>
    intro queue inbound eof hle q o h m hm
    have h0 : inbound.length = 0 := by omega
    rw [orch_ipc_drain, if_pos h0] at h
    split at h <;>
      (simp only [DrainOut.ok.injEq] at h; obtain ⟨h1, _⟩ := h; subst h1;
        exact Or.inl hm)
  | succ n ih =>
    intro queue inbound eof hle q o h m hm
    rw [orch_ipc_drain] at h
    split at h
    · split at h <;>
        (simp only [DrainOut.ok.injEq] at h; obtain ⟨h1, _⟩ := h; subst h1;
          exact Or.inl hm)
    · rename_i hlen0
      split at h
      · exact absurd h (by simp)
      · rename_i hshort
        simp only at h
        split at h
        · exact absurd h (by simp)
        · rename_i hbad
          split at h
          · rename_i hres
            have hsh : 16 ≤ inbound.length := le_of_not_lt hshort
            have hbound :
                ((List.drop hdrSize inbound).drop
                  (decodeWord (List.take 8 inbound) - hdrSize)).length ≤ n := by
              simp only [List.length_drop]
              rw [show hdrSize = 16 from rfl]
              omega
            rcases ih _ _ _ hbound q o h m hm with hq | ht
            · rcases List.mem_append.mp hq with hq' | hnew
              · exact Or.inl hq'
              · right
                have hmeq := List.mem_singleton.mp hnew
                subst hmeq
                intro h0
                exact hbad (Or.inr h0)
            · exact Or.inr ht
          · split at h
            · simp only [DrainOut.ok.injEq] at h
              obtain ⟨h1, _⟩ := h
              subst h1
              exact Or.inl hm
            · exact absurd h (by simp)

/-- On a queue whose tags all lie strictly between the sentinel and
`IPC_LAST`, the dispatch loop never reaches its out-of-bounds case. -/
theorem orch_ipc_pop_no_oob (cb : Callbacks) (wantMsg : Bool) :
    ∀ (queue disp : List OrchIpcMsg),
      (∀ m ∈ queue, m.tag ≠ IPC_NOXMIT ∧ m.tag < IPC_LAST) →
      ∀ msg, orch_ipc_pop cb wantMsg queue disp ≠ PopOut.oob msg := by
  intro queue
  induction queue with
  | nil =>
    intro disp h msg
    rw [orch_ipc_pop]
    simp
  | cons m rest ih =>
    intro disp h msg
    rw [orch_ipc_pop]
    have hm := h m (List.mem_cons_self _ _)
    have h0 : m.tag ≠ 0 := hm.1
    have h6 : m.tag < 6 := hm.2
    have hidx : m.tag - 1 < IPC_LAST - 1 := by
      have h5 : IPC_LAST - 1 = 5 := rfl
      rw [h5]
      omega
    rw [dif_pos hidx]
    have hrest : ∀ m' ∈ rest, m'.tag ≠ IPC_NOXMIT ∧ m'.tag < IPC_LAST :=
      fun m' hm' => h m' (List.mem_cons_of_mem _ hm')
    cases hc : cb ⟨m.tag - 1, hidx⟩ with
    | some b =>
      cases b
      · simp
      · simpa using ih (disp ++ [m]) hrest msg
    | none =>
      cases wantMsg
      · simpa using ih disp hrest msg
      · simp

/-- C9 counterexample: a peer-supplied frame carrying tag `IPC_LAST` (6)
passes the drain-time validation — its size is a header's worth and its tag
is nonzero — yet its dispatch index `IPC_LAST - 1` is not within the
`IPC_LAST - 1`-entry handler table, and the receive path hits the
out-of-bounds access. -/
theorem C9_oob_tag_cex :
    orch_ipc_recv (fun _ => none) [] (msgBytes ⟨IPC_LAST, []⟩) false
      = RecvOut.oobAccess ∧
    ¬ (IPC_LAST - 1 < IPC_LAST - 1) := by
  constructor
  · unfold orch_ipc_recv
    have hframe := orch_ipc_drain_frame [] ⟨IPC_LAST, []⟩ [] false (by decide)
      (by decide) (by decide)
    rw [List.append_nil] at hframe
    rw [hframe, orch_ipc_drain_nil]
    simp only [if_neg (by simp : ¬ (false = true)), List.nil_append]
    rw [orch_ipc_pop]
    rw [dif_neg (by decide : ¬ (IPC_LAST - 1 < IPC_LAST - 1))]
  · decide

/-- C9 amended: drain-time header validation guarantees only that every
accepted message has a nonzero tag; that keeps the dispatch index
`tag - 1` inside the `IPC_LAST - 1`-entry table exactly for tags below
`IPC_LAST`, which the validation does not enforce — dispatch is in bounds
for every queue whose tags lie strictly between the sentinel and
`IPC_LAST`, while a peer-supplied tag at or above `IPC_LAST` is accepted
and drives the access out of bounds. -/
theorem C9_dispatch_bounds (queue : List OrchIpcMsg) (inbound : List Nat)
    (eof : Bool) (q : List OrchIpcMsg) (o : Bool) (cb : Callbacks)
    (wantMsg : Bool)
    (h : orch_ipc_drain queue inbound eof = .ok q o) :
    (∀ m ∈ q, m ∈ queue ∨ m.tag ≠ IPC_NOXMIT) ∧
    ((∀ m ∈ q, m.tag ≠ IPC_NOXMIT ∧ m.tag < IPC_LAST) →
      ∀ msg, orch_ipc_pop cb wantMsg q [] ≠ PopOut.oob msg) :=
  ⟨orch_ipc_drain_ok_mem_aux inbound.length queue inbound eof le_rfl q o h,
    fun hall => orch_ipc_pop_no_oob cb wantMsg q [] hall⟩

/-- C9 amended witness: one accepted `IPC_RELEASE` frame. -/
theorem C9_dispatch_bounds_witness :
    orch_ipc_drain [] (msgBytes ⟨IPC_RELEASE, []⟩) false
      = DrainOut.ok [⟨IPC_RELEASE, []⟩] true ∧
    ((∀ m ∈ [(⟨IPC_RELEASE, []⟩ : OrchIpcMsg)],
        m ∈ ([] : List OrchIpcMsg) ∨ m.tag ≠ IPC_NOXMIT) ∧
      ((∀ m ∈ [(⟨IPC_RELEASE, []⟩ : OrchIpcMsg)],
          m.tag ≠ IPC_NOXMIT ∧ m.tag < IPC_LAST) →
        ∀ msg, orch_ipc_pop (fun _ => none) true [⟨IPC_RELEASE, []⟩] []
          ≠ PopOut.oob msg)) := by
  have h : orch_ipc_drain [] (msgBytes ⟨IPC_RELEASE, []⟩) false
      = DrainOut.ok [⟨IPC_RELEASE, []⟩] true := by
    have hframe := orch_ipc_drain_frame [] ⟨IPC_RELEASE, []⟩ [] false (by decide)
      (by decide) (by decide)
    rw [List.append_nil] at hframe
    rw [hframe, orch_ipc_drain_nil]
    simp
  exact ⟨h, C9_dispatch_bounds [] (msgBytes ⟨IPC_RELEASE, []⟩) false
    [⟨IPC_RELEASE, []⟩] true (fun _ => none) true h⟩

/-! ### Claim C2 — registering over an existing handler -/

/-- C2 counterexample: with a handler already registered for
`IPC_TERMIOS_SET` (the one-shot response handler of an outstanding termios
inquiry), a second `orch_ipc_register` for the same tag returns 0 —
success, not an error — and silently replaces the existing handler. -/
theorem C2_register_overwrites_cex :
    (Function.update (fun _ => none : Callbacks)
        ⟨IPC_TERMIOS_SET - 1, by decide⟩ (some true))
      ⟨IPC_TERMIOS_SET - 1, by decide⟩ = some true ∧
    (orch_ipc_register
        (Function.update (fun _ => none : Callbacks)
          ⟨IPC_TERMIOS_SET - 1, by decide⟩ (some true))
        IPC_TERMIOS_SET (by decide) (some false)).2 = 0 ∧
    (orch_ipc_register
        (Function.update (fun _ => none : Callbacks)
          ⟨IPC_TERMIOS_SET - 1, by decide⟩ (some true))
        IPC_TERMIOS_SET (by decide) (some false)).1
      ⟨IPC_TERMIOS_SET - 1, by decide⟩ = some false := by
  refine ⟨by simp, rfl, ?_⟩
  simp [orch_ipc_register]

/-- C2 amended: `orch_ipc_register` performs no occupancy check — for every
channel handler table and every in-range tag it returns success and
installs the given handler, silently replacing whatever was registered for
that tag before. -/
theorem C2_register_always_succeeds (cb : Callbacks) (tag : Nat)
    (hidx : tag - 1 < IPC_LAST - 1) (handler : Option Bool) :
    (orch_ipc_register cb tag hidx handler).2 = 0 ∧
    (orch_ipc_register cb tag hidx handler).1 ⟨tag - 1, hidx⟩ = handler := by
  refine ⟨rfl, ?_⟩
  simp [orch_ipc_register]

/-- C2 amended witness: registering over the already-occupied
`IPC_TERMIOS_SET` slot. -/
theorem C2_register_always_succeeds_witness :
    IPC_TERMIOS_SET - 1 < IPC_LAST - 1 ∧
    ((orch_ipc_register
        (Function.update (fun _ => none : Callbacks)
          ⟨IPC_TERMIOS_SET - 1, by decide⟩ (some true))
        IPC_TERMIOS_SET (by decide) (some false)).2 = 0 ∧
      (orch_ipc_register
          (Function.update (fun _ => none : Callbacks)
            ⟨IPC_TERMIOS_SET - 1, by decide⟩ (some true))
          IPC_TERMIOS_SET (by decide) (some false)).1
        ⟨IPC_TERMIOS_SET - 1, by decide⟩ = some false) :=
  ⟨by decide, C2_register_always_succeeds
    (Function.update (fun _ => none : Callbacks)
      ⟨IPC_TERMIOS_SET - 1, by decide⟩ (some true))
    IPC_TERMIOS_SET (by decide) (some false)⟩

/-! ### Claim C3 — release handshake -/

/-- A successful `orch_wait` consumed either an end-of-file or a message
tagged `IPC_RELEASE` from the channel. -/
theorem orch_wait_success_release_or_eof (cb : Callbacks)
    (events : List WaitEvent) :
    orch_wait cb events = .success →
      WaitEvent.eof ∈ events ∨
        ∃ m, WaitEvent.msg m ∈ events ∧ m.tag = IPC_RELEASE := by
  induction events with
  | nil =>
    intro h
    rw [orch_wait] at h
    simp at h
  | cons e rest ih =>
    intro h
    match e with
    | .eof => exact Or.inl (List.mem_cons_self _ _)
    | .msg m =>
      rw [orch_wait] at h
      split at h
      · rename_i hidx
        split at h
        · rename_i hOk heq
          split at h
          · rcases ih h with h1 | ⟨m', hm', ht'⟩
            · exact Or.inl (List.mem_cons_of_mem _ h1)
            · exact Or.inr ⟨m', List.mem_cons_of_mem _ hm', ht'⟩
          · simp at h
        · rename_i heq
          split at h
          · rename_i htag
            exact Or.inr ⟨m, List.mem_cons_self _ _, htag⟩
          · rcases ih h with h1 | ⟨m', hm', ht'⟩
            · exact Or.inl (List.mem_cons_of_mem _ h1)
            · exact Or.inr ⟨m', List.mem_cons_of_mem _ hm', ht'⟩
      · simp at h

/-- C3 counterexample: a control channel that reaches end-of-file without
any message carrying `IPC_RELEASE`: the parent's `orch_wait` inside
`orch_spawn` returns success (so `spawn` returns without the child's first
`RELEASE` having been observed), and the child's `orch_exec` goes on to
execute the target command without ever having received a `RELEASE`. -/
theorem C3_eof_handshake_cex :
    orch_spawn_parent_wait [WaitEvent.eof] = WaitResult.success ∧
    orch_exec cbExecChild [WaitEvent.eof] = ExecOut.execed ∧
    ([WaitEvent.eof].all fun e =>
      match e with
      | WaitEvent.msg m => decide (m.tag ≠ IPC_RELEASE)
      | WaitEvent.eof => true) = true := by
  refine ⟨?_, ?_, rfl⟩
  · rw [orch_spawn_parent_wait, orch_wait]
  · rw [orch_exec, orch_wait]

/-- C3 amended: `orch_spawn` in the parent returns (successfully) only
after a `RELEASE` message or end-of-file has been observed on the control
channel, and the child executes the target command only after its
`orch_wait` observed a `RELEASE` or end-of-file — end-of-file being the
one path through the handshake that involves no `RELEASE` at all. -/
theorem C3_handshake_release_or_eof (events : List WaitEvent) :
    (orch_spawn_parent_wait events = WaitResult.success →
      WaitEvent.eof ∈ events ∨
        ∃ m, WaitEvent.msg m ∈ events ∧ m.tag = IPC_RELEASE) ∧
    (orch_exec cbExecChild events = ExecOut.execed →
      WaitEvent.eof ∈ events ∨
        ∃ m, WaitEvent.msg m ∈ events ∧ m.tag = IPC_RELEASE) := by
  constructor
  · intro h
    exact orch_wait_success_release_or_eof cbSpawnParent events h
  · intro h
    rw [orch_exec] at h
    cases hw : orch_wait cbExecChild events <;> rw [hw] at h <;> simp at h
    exact orch_wait_success_release_or_eof cbExecChild events hw

/-- C3 amended witness: a trace consisting of exactly one `RELEASE`
message. -/
theorem C3_handshake_release_or_eof_witness :
    orch_spawn_parent_wait [WaitEvent.msg ⟨IPC_RELEASE, []⟩] = WaitResult.success ∧
    (WaitEvent.eof ∈ [WaitEvent.msg (⟨IPC_RELEASE, []⟩ : OrchIpcMsg)] ∨
      ∃ m, WaitEvent.msg m ∈ [WaitEvent.msg (⟨IPC_RELEASE, []⟩ : OrchIpcMsg)] ∧
        m.tag = IPC_RELEASE) := by
  have h : orch_spawn_parent_wait [WaitEvent.msg ⟨IPC_RELEASE, []⟩]
      = WaitResult.success := by decide
  exact ⟨h, (C3_handshake_release_or_eof [WaitEvent.msg ⟨IPC_RELEASE, []⟩]).1 h⟩

/-! ### Claims C5 and C7 — close idempotence and termination escalation -/

/-- What the common close tail guarantees whenever it returns: the channel
pointer is cleared, the pty master is marked closed, the signal record is
passed through, the result reflects the graceful-kill verdict, and an
open pty master descriptor is among the descriptors closed. -/
theorem orchlua_process_close_finish_out (cb : Callbacks) (failed : Bool)
    (sigs : List (Nat × Bool)) (p : OrchProcess) (r : CloseResult)
    (q : OrchProcess) (f : List Int) (s : List (Nat × Bool))
    (h : orchlua_process_close_finish cb failed sigs p = .out r q f s) :
    q.pid = p.pid ∧ q.ipc = none ∧ q.termctl = -1 ∧ s = sigs ∧
      r = (if failed then CloseResult.failGraceful else CloseResult.success) ∧
      (p.termctl ≠ -1 → p.termctl ∈ f) := by
  unfold orchlua_process_close_finish at h
  split at h
  · rename_i err disp fds heq
    simp only [ProcCloseOut.out.injEq] at h
    obtain ⟨hr, hq, hf, hs⟩ := h
    subst hr
    subst hq
    subst hf
    subst hs
    refine ⟨rfl, rfl, rfl, rfl, rfl, ?_⟩
    intro htc
    simp only [if_pos htc]
    simp
  · simp at h

/-- The close tail on a handle whose channel pointer is already cleared and
whose pty master is already closed does nothing: it succeeds (modulo the
graceful-kill verdict), closes no descriptor and sends no signal. -/
theorem orchlua_process_close_finish_closed (cb : Callbacks) (failed : Bool)
    (sigs : List (Nat × Bool)) (p : OrchProcess) (hipc : p.ipc = none)
    (htc : p.termctl = -1) :
    orchlua_process_close_finish cb failed sigs p =
      .out (if failed then CloseResult.failGraceful else CloseResult.success)
        { p with ipc := none, termctl := -1 } [] sigs := by
  unfold orchlua_process_close_finish
  rw [hipc]
  rw [show orch_ipc_close cb none = IpcCloseOut.done false [] [] from rfl]
  simp [htc]

/-- Whenever `orchlua_process_close` returns, the child has been reaped
(or was already gone), and either the call closed nothing at all (the
early already-killed failure return) or the handle's channel pointer and
pty master are now cleared. -/
theorem orchlua_process_close_out_state (cb : Callbacks) (beh : ChildBehavior)
    (p : OrchProcess) (r : CloseResult) (q : OrchProcess) (f : List Int)
    (s : List (Nat × Bool))
    (h : orchlua_process_close cb beh p = .out r q f s) :
    q.pid = 0 ∧ (f = [] ∨ (q.ipc = none ∧ q.termctl = -1)) := by
  unfold orchlua_process_close at h
  split at h
  · rename_i hpid
    split at h
    · rename_i sig
      split at h
      · simp only [ProcCloseOut.out.injEq] at h
        obtain ⟨_, hq, hf, _⟩ := h
        subst hq
        subst hf
        exact ⟨rfl, Or.inl rfl⟩
      · have hfin := orchlua_process_close_finish_out _ _ _ _ _ _ _ _ h
        refine ⟨by rw [hfin.1], Or.inr ⟨hfin.2.1, hfin.2.2.1⟩⟩
    · split at h
      · have hfin := orchlua_process_close_finish_out _ _ _ _ _ _ _ _ h
        refine ⟨by rw [hfin.1], Or.inr ⟨hfin.2.1, hfin.2.2.1⟩⟩
      · have hfin := orchlua_process_close_finish_out _ _ _ _ _ _ _ _ h
        refine ⟨by rw [hfin.1], Or.inr ⟨hfin.2.1, hfin.2.2.1⟩⟩
  · rename_i hpid
    have hfin := orchlua_process_close_finish_out _ _ _ _ _ _ _ _ h
    refine ⟨?_, Or.inr ⟨hfin.2.1, hfin.2.2.1⟩⟩
    rw [hfin.1]
    omega

/-- C5: close is idempotent.  Whenever a second `orchlua_process_close` on
the handle returned by a first close returns, it reports success (no
error), sends no signal, and closes no descriptor the first call closed
(no double-close; the freed channel handle and its queued messages are
likewise not touched again, the channel pointer having been cleared); and
closing an already-closed channel through the cleared (NULL) pointer is a
no-op returning success. -/
theorem C5_close_idempotent (cb cb2 : Callbacks) (beh beh2 : ChildBehavior)
    (p : OrchProcess) (r1 : CloseResult) (p1 : OrchProcess) (f1 : List Int)
    (s1 : List (Nat × Bool)) (r2 : CloseResult) (p2 : OrchProcess)
    (f2 : List Int) (s2 : List (Nat × Bool))
    (h1 : orchlua_process_close cb beh p = .out r1 p1 f1 s1)
    (h2 : orchlua_process_close cb2 beh2 p1 = .out r2 p2 f2 s2) :
    r2 = CloseResult.success ∧ s2 = [] ∧ (∀ fd ∈ f2, fd ∉ f1) ∧
    orch_ipc_close cb2 none = IpcCloseOut.done false [] [] := by
  obtain ⟨hpid1, hrest⟩ := orchlua_process_close_out_state cb beh p r1 p1 f1 s1 h1
  have hpid1' : ¬ p1.pid ≠ 0 := by omega
  unfold orchlua_process_close at h2
  rw [if_neg hpid1'] at h2
  have hfin := orchlua_process_close_finish_out _ _ _ _ _ _ _ _ h2
  refine ⟨by rw [hfin.2.2.2.2.1]; simp, hfin.2.2.2.1, ?_, rfl⟩
  rcases hrest with hf1 | ⟨hipc, htc⟩
  · subst hf1
    intro fd _ hc
    simp at hc
  · rw [orchlua_process_close_finish_closed cb2 false [] p1 hipc htc] at h2
    simp only [ProcCloseOut.out.injEq] at h2
    obtain ⟨_, _, hf2, _⟩ := h2
    subst hf2
    intro fd hfd
    simp at hfd

/-- C5 witness: closing a fresh handle twice. -/
theorem C5_close_idempotent_witness :
    orchlua_process_close (fun _ => none) ⟨none, true⟩
        ⟨4, none, 3, false, false, false, false⟩
      = .out CloseResult.success ⟨0, none, -1, false, false, false, false⟩
          [3] [(SIGINT, true)] ∧
    orchlua_process_close (fun _ => none) ⟨none, true⟩
        ⟨0, none, -1, false, false, false, false⟩
      = .out CloseResult.success ⟨0, none, -1, false, false, false, false⟩
          [] [] ∧
    (CloseResult.success = CloseResult.success ∧ ([] : List (Nat × Bool)) = [] ∧
      (∀ fd ∈ ([] : List Int), fd ∉ ([3] : List Int)) ∧
      orch_ipc_close (fun _ => none) none = IpcCloseOut.done false [] []) := by
  have ha : orchlua_process_close (fun _ => none) ⟨none, true⟩
      ⟨4, none, 3, false, false, false, false⟩
      = .out CloseResult.success ⟨0, none, -1, false, false, false, false⟩
          [3] [(SIGINT, true)] := by decide
  have hb : orchlua_process_close (fun _ => none) ⟨none, true⟩
      ⟨0, none, -1, false, false, false, false⟩
      = .out CloseResult.success ⟨0, none, -1, false, false, false, false⟩
          [] [] := by decide
  exact ⟨ha, hb, C5_close_idempotent (fun _ => none) (fun _ => none)
    ⟨none, true⟩ ⟨none, true⟩ ⟨4, none, 3, false, false, false, false⟩
    CloseResult.success ⟨0, none, -1, false, false, false, false⟩ [3]
    [(SIGINT, true)] CloseResult.success
    ⟨0, none, -1, false, false, false, false⟩ [] [] ha hb⟩

/-- C7: termination escalation.  For a handle whose child is still alive,
whenever close returns it has sent `SIGINT` under the armed 5-second alarm
and, exactly when the child ignored it past the deadline, escalated to an
unconditional `SIGKILL` waited on without a deadline; in every such path
the child is reaped, the channel and the pty master are closed (an open
pty master descriptor appears among the closed descriptors), and the call
reports failure if and only if graceful termination failed. -/
theorem C7_close_escalation (cb : Callbacks) (beh : ChildBehavior)
    (p : OrchProcess) (r : CloseResult) (q : OrchProcess) (f : List Int)
    (s : List (Nat × Bool)) (halive : p.pid ≠ 0)
    (hnot : beh.exitedSig = none)
    (h : orchlua_process_close cb beh p = .out r q f s) :
    (r = CloseResult.failGraceful ↔ ¬ beh.diesOnIntInTime) ∧
    s = (if beh.diesOnIntInTime then [(SIGINT, true)]
         else [(SIGINT, true), (SIGKILL, false)]) ∧
    q.pid = 0 ∧ q.ipc = none ∧ q.termctl = -1 ∧
    (p.termctl ≠ -1 → p.termctl ∈ f) := by
  unfold orchlua_process_close at h
  rw [if_pos halive] at h
  rw [hnot] at h
  cases hd : beh.diesOnIntInTime <;> rw [hd] at h <;> simp only [] at h <;>
    have hfin := orchlua_process_close_finish_out _ _ _ _ _ _ _ _ h
  · refine ⟨?_, ?_, by rw [hfin.1], hfin.2.1, hfin.2.2.1, hfin.2.2.2.2.2⟩
    · rw [hfin.2.2.2.2.1]
      simp
    · rw [hfin.2.2.2.1]
      simp
  · refine ⟨?_, ?_, by rw [hfin.1], hfin.2.1, hfin.2.2.1, hfin.2.2.2.2.2⟩
    · rw [hfin.2.2.2.2.1]
      simp
    · rw [hfin.2.2.2.1]
      simp

/-- C7 witness: a live child that ignores `SIGINT`. -/
theorem C7_close_escalation_witness :
    (5 ≠ 0 ∧ (⟨none, false⟩ : ChildBehavior).exitedSig = none) ∧
    orchlua_process_close (fun _ => none) ⟨none, false⟩
        ⟨5, none, 3, false, false, false, false⟩
      = .out CloseResult.failGraceful ⟨0, none, -1, false, false, false, false⟩
          [3] [(SIGINT, true), (SIGKILL, false)] ∧
    ((CloseResult.failGraceful = CloseResult.failGraceful ↔
        ¬ (⟨none, false⟩ : ChildBehavior).diesOnIntInTime) ∧
      [(SIGINT, true), (SIGKILL, false)] =
        (if (⟨none, false⟩ : ChildBehavior).diesOnIntInTime
         then [(SIGINT, true)] else [(SIGINT, true), (SIGKILL, false)]) ∧
      (⟨0, none, -1, false, false, false, false⟩ : OrchProcess).pid = 0 ∧
      (⟨0, none, -1, false, false, false, false⟩ : OrchProcess).ipc = none ∧
      (⟨0, none, -1, false, false, false, false⟩ : OrchProcess).termctl = -1 ∧
      ((⟨5, none, 3, false, false, false, false⟩ : OrchProcess).termctl ≠ -1 →
        (⟨5, none, 3, false, false, false, false⟩ : OrchProcess).termctl ∈
          ([3] : List Int))) := by
  have h : orchlua_process_close (fun _ => none) ⟨none, false⟩
      ⟨5, none, 3, false, false, false, false⟩
      = .out CloseResult.failGraceful ⟨0, none, -1, false, false, false, false⟩
          [3] [(SIGINT, true), (SIGKILL, false)] := by decide
  exact ⟨⟨by decide, rfl⟩, h, C7_close_escalation (fun _ => none) ⟨none, false⟩
    ⟨5, none, 3, false, false, false, false⟩ CloseResult.failGraceful
    ⟨0, none, -1, false, false, false, false⟩ [3]
    [(SIGINT, true), (SIGKILL, false)] (by decide) rfl h⟩

/-! ### Claim C8 — read end conditions -/

/-- C8: in the read loop, a pty-master read failing with `EIO` is treated
identically to a zero-length read; a timeout returns the "no result yet"
success, not an error; and on end-of-file the handle latches `eof`, the pty
master is closed, the child is reaped when reapable, and the call fails
exactly when the child was terminated by a signal, reporting clean
end-of-file otherwise.  The hypotheses record the preconditions the C code
asserts at the end-of-file branch: the pty master still open and the child
not yet reaped. -/
theorem C8_read_end_conditions (beh : ChildBehavior) (p : OrchProcess)
    (io : PtyReadOutcome) (cbDone : Bool) (sig : Nat)
    (_hpid : p.pid ≠ 0) (_htc : 0 ≤ p.termctl) :
    orchlua_process_read_step beh p .ready .eioErr cbDone
      = orchlua_process_read_step beh p .ready (.bytesRead []) cbDone ∧
    orchlua_process_read_step beh p .timeout io cbDone = .finished p ∧
    (beh.exitedSig = some sig → sig ≠ 0 →
      orchlua_process_read_step beh p .ready (.bytesRead []) cbDone
        = .failSignal sig { p with eof := true, termctl := -1, pid := 0 }) ∧
    (beh.exitedSig = some 0 →
      orchlua_process_read_step beh p .ready (.bytesRead []) cbDone
        = .finished { p with eof := true, termctl := -1, pid := 0 }) ∧
    (beh.exitedSig = none →
      orchlua_process_read_step beh p .ready (.bytesRead []) cbDone
        = .finished { p with eof := true, termctl := -1 }) := by
  refine ⟨rfl, rfl, ?_, ?_, ?_⟩
  · intro h1 h2
    simp [orchlua_process_read_step, h1, h2]
  · intro h1
    simp [orchlua_process_read_step, h1]
  · intro h1
    simp [orchlua_process_read_step, h1]

/-- C8 witness: a signal-terminated child observed at end-of-file. -/
theorem C8_read_end_conditions_witness :
    ((⟨5, none, 3, false, false, false, false⟩ : OrchProcess).pid ≠ 0 ∧
      (0 : Int) ≤ (⟨5, none, 3, false, false, false, false⟩ : OrchProcess).termctl) ∧
    orchlua_process_read_step ⟨some 9, true⟩
        ⟨5, none, 3, false, false, false, false⟩ .ready .eioErr false
      = .failSignal 9 ⟨0, none, -1, false, false, true, false⟩ ∧
    orchlua_process_read_step ⟨some 9, true⟩
        ⟨5, none, 3, false, false, false, false⟩ .timeout .eioErr false
      = .finished ⟨5, none, 3, false, false, false, false⟩ := by
  have hall := C8_read_end_conditions ⟨some 9, true⟩
    ⟨5, none, 3, false, false, false, false⟩ .eioErr false 9 (by decide) (by decide)
  refine ⟨⟨by decide, by decide⟩, ?_, hall.2.1⟩
  rw [hall.1]
  exact hall.2.2.1 rfl (by decide)

/-! ### Claim C1 — terminal-attribute update field list -/

/-- C1, evaluated at the failing input: an update table naming only `cflag`
(new value 1, current value 0).  The snapshot `orchlua_term_update` computes
is unchanged — the named field is not applied and a subsequent fetch still
reads the old `cflag` — even though the dispatch chain in the loop body
would apply it (second conjunct): the dead branch exists because `"cflag"`
is missing from the `fields` array the loop iterates over (third
conjunct). -/
theorem C1_cflag_update_ignored :
    orchlua_term_update_snapshot ⟨0, 0, 0, 0, []⟩ ⟨none, none, some 1, none, none⟩
      = ⟨0, 0, 0, 0, []⟩ ∧
    orchlua_term_apply_field ⟨none, none, some 1, none, none⟩ ⟨0, 0, 0, 0, []⟩
      "cflag" = ⟨0, 0, 1, 0, []⟩ ∧
    "cflag" ∉ orchlua_term_update_fields ∧
    orchlua_term_fetch_flag
      (orchlua_term_update_snapshot ⟨0, 0, 0, 0, []⟩
        ⟨none, none, some 1, none, none⟩) "cflag" = some 0 := by
  refine ⟨by decide, by decide, by decide, by decide⟩

/-! ### Claim C10 — fetch_term after release -/

/-- C10, evaluated at the failing input: after a successful
`orchlua_process_release` the handle's channel pointer is NULL, and the
`orch_ipc_okay(self->ipc)` liveness check at the head of
`orchlua_process_term` dereferences that NULL pointer — the undefined
crash outcome, not the "process already released" failure the code's own
error string intends for this state. -/
theorem C10_fetch_after_release_crashes :
    orchlua_process_release (fun _ => none)
        ⟨7, some ⟨3, [], [], false⟩, 4, false, false, false, false⟩
      = ProcReleaseOut.ok ⟨7, none, 4, false, true, false, false⟩ ∧
    orchlua_process_term_entry ⟨7, none, 4, false, true, false, false⟩
      = TermEntryOut.crashNullDeref ∧
    orchlua_process_term_entry ⟨7, none, 4, false, true, false, false⟩
      ≠ TermEntryOut.failAlreadyReleased ∧
    orch_ipc_okay none = none := by
  have hsend : orch_ipc_send [] [] false ⟨IPC_RELEASE, []⟩
      = SendOut.sent [] [] (msgBytes ⟨IPC_RELEASE, []⟩) := by
    unfold orch_ipc_send
    rw [orch_ipc_drain_nil]
    simp
  have hclose : orch_ipc_close (fun _ => none)
      (some ⟨3, [], [], false⟩) = IpcCloseOut.done false [] [3] := by
    unfold orch_ipc_close
    simp [orch_ipc_drain_nil, orch_ipc_pop]
  refine ⟨?_, by decide, by decide, rfl⟩
  unfold orchlua_process_release
  simp only [hsend, hclose]

end Orch
